import Mathlib

/-!
# httpsyet: the command-line entry point `main.go`

A shallow embedding of `func main()` of `src/main.go`.

* Text (Go `string` and `[]byte`) is a Lean `String`; writing appends.
* A Go `error` is an `Option String`: `none` is `nil`, `some m` is an error
  whose `Error()` text is `m`.
* Writes to `os.Stdout` and `os.Stderr` succeed; each one is recorded as an
  event of the trace, together with the calls `main` makes to its
  collaborators (`httpsyet.Crawler.Run`, `slack.Format`, `slackhook.Post`).
* The collaborators are not part of `main.go`; they are fields of `Env`.
  `Crawler.Run` is an arbitrary function from the `Crawler` value to the
  sequence of effects it performs on `Out`, on `Log` and on the network,
  and the error it returns.
* `os.Exit n` ends `main` with status `n`; returning from `main` ends the
  process with status `0`.
* `main` is the function on a command line that `flag.Parse` accepts;
  `program` is the whole process on the raw arguments, where `flag.Parse`
  itself may end the process (`-h`, `-help`, a parse error).
-/

namespace Httpsyet

/-! ## Writers, logger, crawler configuration -/

/-- The two streams of the process. -/
inductive Stream
  | stdout
  | stderr
  deriving DecidableEq, Repr

/-- The `io.Writer` values `main` builds: `os.Stdout`, `os.Stderr`, the two
`bytes.Buffer` variables `slackBuf` and `slackErrBuf`, and `io.MultiWriter`
of two writers. -/
inductive Writer
  | osStdout
  | osStderr
  | slackBuf
  | slackErrBuf
  | multi (a b : Writer)
  deriving DecidableEq, Repr

/-- A `*log.Logger` as built by `log.New(w, pfx, 0)`: flags `0` means no
date, time or file header, only the prefix. -/
structure Logger where
  w : Writer
  pfx : String
  deriving DecidableEq, Repr

/-- The struct `httpsyet.Crawler` as `main` fills it in (lines 91-98).
`Delay` is a `time.Duration`, a count of nanoseconds. -/
structure Crawler where
  Sites : List String
  Out : Writer
  Log : Logger
  Depth : Int
  Parallel : Int
  Delay : Int
  Verbose : Bool
  deriving DecidableEq, Repr

/-- One effect of `Crawler.Run` on the outside: a `Write` on `Out`, one
message emitted through `Log`, or one HTTP request. -/
inductive EngineOp
  | out (s : String)
  | log (msg : String)
  | fetch (url : String)
  deriving DecidableEq, Repr

/-- What one call of `Crawler.Run` does: its effects in order and the error
it returns. -/
structure RunResult where
  ops : List EngineOp
  err : Option String
  deriving DecidableEq, Repr

/-- An observable step of the process. -/
inductive Event
  | write (fd : Stream) (s : String)
  | runCall (c : Crawler)
  | fetch (url : String)
  | runReturn (err : Option String)
  | formatCall (outTxt errTxt : String)
  | formatReturn (msg : String)
  | postCall (url msg : String)
  | postReturn (err : Option String)
  deriving DecidableEq, Repr

/-- The mutable state `main` works on: the two capture buffers and the
trace of events so far. -/
structure World where
  slackBuf : String
  slackErrBuf : String
  trace : List Event
  deriving DecidableEq, Repr

/-- The state at process start: `var slackBuf, slackErrBuf bytes.Buffer`
are empty, nothing has happened. -/
def World.init : World := ⟨"", "", []⟩

/-- Record an event. -/
def World.emit (w : World) (e : Event) : World :=
  { w with trace := w.trace ++ [e] }

/-- The method `Write` of each writer. `io.MultiWriter(a, b)` writes to `a`,
then to `b`. -/
def Writer.write : Writer → String → World → World
  | .osStdout, s, w => w.emit (.write .stdout s)
  | .osStderr, s, w => w.emit (.write .stderr s)
  | .slackBuf, s, w => { w with slackBuf := w.slackBuf ++ s }
  | .slackErrBuf, s, w => { w with slackErrBuf := w.slackErrBuf ++ s }
  | .multi a b, s, w => b.write s (a.write s w)

/-- The line a logger with flags `0` writes for a message: prefix, message,
and a newline unless the message already ends in one. -/
def Logger.line (l : Logger) (msg : String) : String :=
  if msg.data.getLast? = some '\n' then l.pfx ++ msg else l.pfx ++ msg ++ "\n"

/-- The methods `Print`, `Printf`, `Println` of `*log.Logger` after formatting:
one `Write` of the line on the logger's writer. -/
def Logger.output (l : Logger) (msg : String) (w : World) : World :=
  l.w.write (l.line msg) w

/-! ## Command line and environment -/

/-- A command line that `flag.Parse` accepts: for each flag the value given
(`none` when the flag is omitted) and the positional arguments. -/
structure CmdLine where
  slack : Option String
  depth : Option Int
  parallel : Option Int
  delay : Option Int
  version : Option Bool
  verbose : Option Bool
  args : List String
  deriving DecidableEq, Repr

/-- The variables `main` reads after `flag.Parse()`. -/
structure Flags where
  slackURL : String
  depth : Int
  parallel : Int
  delay : Int
  versionFlag : Bool
  verbose : Bool
  sites : List String
  deriving DecidableEq, Repr

/-- The constant `time.Second` in nanoseconds. -/
def second : Int := 1000000000

/-- Lines 56-61, 69 and 76: each flag has the value given on the command line
or else the default of its definition; `flag.Args()` are the positional
arguments. -/
def parse (cl : CmdLine) : Flags :=
  { slackURL := cl.slack.getD ""
    depth := cl.depth.getD 0
    parallel := cl.parallel.getD 10
    delay := cl.delay.getD second
    versionFlag := cl.version.getD false
    verbose := cl.verbose.getD false
    sites := cl.args }

/-- Everything `main` takes from outside `main.go`. -/
structure Env where
  /-- The value `os.Args[0]`. -/
  prog : String
  /-- The variable `version`, set at build time. -/
  version : String
  /-- The constant `runtime.GOOS`. -/
  goos : String
  /-- The constant `runtime.GOARCH`. -/
  goarch : String
  /-- The text `flag.PrintDefaults()` prints on `os.Stderr`, taken as one write. -/
  printDefaults : String
  /-- The method `httpsyet.Crawler.Run`. -/
  run : Crawler → RunResult
  /-- The function `slack.Format`. -/
  format : String → String → String
  /-- The function `slackhook.Post`. -/
  post : String → String → Option String

/-- The constant `usage` with `%s` replaced by the program name. -/
def usage (prog : String) : String :=
  "Find links you can update to HTTPS\n\nUsage: " ++ prog ++ " [flags] url...\n\n  url  one or more URLs you like to be crawled\n\nSites are crawled recursively. Each http:// link is checked\nto see if it can be replaced with https://. If a link can be replaced,\nit is written to stdout, prefixed with the site name it has been found on.\nFor example:\n\n\thttpsyet https://mysite.com\n\nMight output:\n\thttps://mysite.com http://google.com\n\thttps://mysite.com http://facebook.com\n\thttps://mysite.com/contact http://facebook.com\n\t...\n\nErrors are reported on stderr.\n\n'httpsyet -parallel 5 -delay 1s' means that you will have max 5 requests per second.\n\nFlags:\n"

/-- The constant `more`. -/
def more : String := "\nFor more visit https://qvl.io/httpsyet."

/-- The function assigned to `flag.Usage` (lines 64-68): usage text, flag
defaults, and `more` with the newline of `Fprintln`, all on `os.Stderr`. -/
def flagUsage (env : Env) (w : World) : World :=
  let w1 := Writer.osStderr.write (usage env.prog) w
  let w2 := Writer.osStderr.write env.printDefaults w1
  Writer.osStderr.write (more ++ "\n") w2

/-! ## Running the crawler -/

/-- How one effect of `Run` lands, given the `Out` and `Log` of the crawler. -/
def applyOp (c : Crawler) : EngineOp → World → World
  | .out s, w => c.Out.write s w
  | .log msg, w => c.Log.output msg w
  | .fetch url, w => w.emit (.fetch url)

/-- The effects of `Run` in order. -/
def applyOps (c : Crawler) : List EngineOp → World → World
  | [], w => w
  | op :: ops, w => applyOps c ops (applyOp c op w)

/-- The call `c.Run()`: the call is recorded, the effects happen, the return
is recorded. -/
def callRun (env : Env) (c : Crawler) (w : World) : World :=
  (applyOps c (env.run c).ops (w.emit (.runCall c))).emit (.runReturn (env.run c).err)

/-! ## `main` -/

/-- Lines 82-88: the writer handed to the crawler as `Out`. -/
def output (f : Flags) : Writer :=
  if f.slackURL ≠ "" then .multi .osStdout .slackBuf else .osStdout

/-- Lines 83-88: the writer behind the error logger. -/
def errWriter (f : Flags) : Writer :=
  if f.slackURL ≠ "" then .multi .osStderr .slackErrBuf else .osStderr

/-- Line 89: `errs := log.New(errWriter, "", 0)`. -/
def errs (f : Flags) : Logger := ⟨errWriter f, ""⟩

/-- Lines 91-98: the crawler literal. -/
def crawlerOf (f : Flags) : Crawler :=
  { Sites := f.sites
    Out := output f
    Log := errs f
    Depth := f.depth
    Parallel := f.parallel
    Delay := f.delay
    Verbose := f.verbose }

/-- How the process ends: the final state and the exit status. -/
structure Outcome where
  world : World
  status : Nat
  deriving DecidableEq, Repr

/-- Lines 106-114: the notification step after a successful crawl. -/
def notify (env : Env) (f : Flags) (w : World) : Outcome :=
  if f.slackURL = "" then ⟨w, 0⟩
  else
    let a := w.slackBuf
    let b := w.slackErrBuf
    let msg := env.format a b
    let w1 := (w.emit (.formatCall a b)).emit (.formatReturn msg)
    let r := env.post f.slackURL msg
    let w2 := (w1.emit (.postCall f.slackURL msg)).emit (.postReturn r)
    match r with
    | some e => ⟨(errs f).output ("failed posting to Slack: " ++ e) w2, 1⟩
    | none => ⟨w2, 0⟩

/-- The function `main` of `main.go` on a command line that parses. -/
def main (env : Env) (cl : CmdLine) : Outcome :=
  let f := parse cl
  if f.versionFlag then
    ⟨Writer.osStdout.write
      ("httpsyet " ++ env.version ++ " " ++ env.goos ++ " " ++ env.goarch ++ "\n") World.init, 0⟩
  else if f.sites.length = 0 then
    ⟨flagUsage env World.init, 1⟩
  else
    let w := callRun env (crawlerOf f) World.init
    match (env.run (crawlerOf f)).err with
    | some e => ⟨Writer.osStderr.write ("failed to crawl: " ++ e) w, 1⟩
    | none => notify env f w

/-! ## `flag.Parse` and the whole process

Line 69 calls `flag.Parse()` of Go's package `flag` on `os.Args[1:]`. The
command line flag set has error handling `ExitOnError`: when an argument is
`-h` or `-help` the package calls `flag.Usage` and ends the process with
status 0 (Go 1.15 and later); on any other parse error it prints the error on `os.Stderr`,
calls `flag.Usage` and ends the process with status 2. Only when every flag
parses does `flag.Parse` return and `main` go on at line 71. -/

/-- What the package `flag` takes from other packages: the readers of an
`int` value (`strconv.ParseInt(s, 0, 64)`) and of a `time.Duration`
(`time.ParseDuration`), `none` when the text does not parse, and the text of
the error for the value of a flag that does not parse. -/
structure FlagPkg where
  parseInt : String → Option Int
  parseDuration : String → Option Int
  invalidValue : String → String → String

/-- The six flags `main` defines (lines 56-61). -/
inductive FlagName
  | slack
  | depth
  | parallel
  | delay
  | version
  | verbose
  deriving DecidableEq, Repr

/-- The flag of a name, `none` when `main` defines no such flag. -/
def lookupFlag (name : String) : Option FlagName :=
  if name = "slack" then some .slack
  else if name = "depth" then some .depth
  else if name = "parallel" then some .parallel
  else if name = "delay" then some .delay
  else if name = "version" then some .version
  else if name = "verbose" then some .verbose
  else none

/-- The flags defined with `flag.Bool`: they need no value. -/
def FlagName.isBoolFlag : FlagName → Bool
  | .version => true
  | .verbose => true
  | _ => false

/-- The function `strconv.ParseBool`. -/
def parseBool (s : String) : Option Bool :=
  if s = "1" ∨ s = "t" ∨ s = "T" ∨ s = "TRUE" ∨ s = "true" ∨ s = "True" then some true
  else if s = "0" ∨ s = "f" ∨ s = "F" ∨ s = "FALSE" ∨ s = "false" ∨ s = "False" then
    some false
  else none

/-- The method `Set` of the value of a flag: the flag takes the value read
from the text, `none` when the text does not parse. -/
def setFlag (fp : FlagPkg) (n : FlagName) (value : String) (cl : CmdLine) : Option CmdLine :=
  match n with
  | .slack => some { cl with slack := some value }
  | .depth => (fp.parseInt value).map fun v => { cl with depth := some v }
  | .parallel => (fp.parseInt value).map fun v => { cl with parallel := some v }
  | .delay => (fp.parseDuration value).map fun v => { cl with delay := some v }
  | .version => (parseBool value).map fun v => { cl with version := some v }
  | .verbose => (parseBool value).map fun v => { cl with verbose := some v }

/-- How `flag` reads one argument: not a flag (parsing stops and the argument
stays), the terminator `--`, bad syntax, or a flag name with the value after
`=` when there is one. -/
inductive Token
  | stop
  | terminator
  | bad
  | flag (name : String) (value : Option String)
  deriving DecidableEq, Repr

/-- The name of a flag, after its minus signs: it may not be empty or start
with `-` or `=`; the first `=` after the first character ends the name and
starts the value. -/
def nameOf (c : Char) (cs : List Char) : Token :=
  if c = '-' ∨ c = '=' then .bad
  else
    match cs.dropWhile (fun x => x != '=') with
    | [] => .flag (String.mk (c :: cs)) none
    | _ :: v => .flag (String.mk (c :: cs.takeWhile (fun x => x != '='))) (some (String.mk v))

/-- The first part of `parseOne`: an argument shorter than two characters or
not starting with `-` is no flag; one or two minus signs introduce a flag;
`--` alone ends the flags. -/
def tokenOf (s : String) : Token :=
  match s.data with
  | c0 :: c1 :: cs =>
    if c0 ≠ '-' then .stop
    else if c1 = '-' then
      match cs with
      | [] => .terminator
      | c :: cs1 => nameOf c cs1
    else nameOf c1 cs
  | _ => .stop

/-- How `flag.Parse` ends: it returns with the flags set and the positional
arguments left, or it ends the process after `-h` or `-help`, or after a
parse error with the text of the error. -/
inductive ParseOutcome
  | ok (cl : CmdLine)
  | help
  | fail (msg : String)
  deriving DecidableEq, Repr

/-- The loop of `flag.Parse` over `parseOne`: flags are read from the left
until the first argument that is no flag; a flag that is not boolean and has
no `=` takes the next argument as its value. -/
def parseArgs (fp : FlagPkg) : List String → CmdLine → ParseOutcome
  | [], cl => .ok { cl with args := [] }
  | s :: rest, cl =>
    match tokenOf s with
    | .stop => .ok { cl with args := s :: rest }
    | .terminator => .ok { cl with args := rest }
    | .bad => .fail ("bad flag syntax: " ++ s)
    | .flag name value =>
      match lookupFlag name with
      | none =>
        if name = "help" ∨ name = "h" then .help
        else .fail ("flag provided but not defined: -" ++ name)
      | some n =>
        if n.isBoolFlag then
          match setFlag fp n (value.getD "true") cl with
          | some cl1 => parseArgs fp rest cl1
          | none => .fail (fp.invalidValue name (value.getD "true"))
        else
          match value with
          | some v =>
            match setFlag fp n v cl with
            | some cl1 => parseArgs fp rest cl1
            | none => .fail (fp.invalidValue name v)
          | none =>
            match rest with
            | [] => .fail ("flag needs an argument: -" ++ name)
            | v :: rest2 =>
              match setFlag fp n v cl with
              | some cl1 => parseArgs fp rest2 cl1
              | none => .fail (fp.invalidValue name v)

/-- The call `flag.Parse()` on the arguments after the program name: no flag
is set at the start. -/
def flagParse (fp : FlagPkg) (argv : List String) : ParseOutcome :=
  parseArgs fp argv ⟨none, none, none, none, none, none, []⟩

/-- The whole process on the arguments `os.Args[1:]`: `flag.Parse` ends it
with status 0 after the usage on `-h` or `-help`, with status 2 after the
error and the usage on a parse error, and otherwise `main` goes on with the
parsed command line. -/
def program (fp : FlagPkg) (env : Env) (argv : List String) : Outcome :=
  match flagParse fp argv with
  | .ok cl => main env cl
  | .help => ⟨flagUsage env World.init, 0⟩
  | .fail msg => ⟨flagUsage env (Writer.osStderr.write (msg ++ "\n") World.init), 2⟩

/-! ## Reading a trace -/

/-- The bytes a trace delivers to a stream, in order. -/
def written (fd : Stream) : List Event → String
  | [] => ""
  | .write fd1 s :: t => if fd1 = fd then s ++ written fd t else written fd t
  | _ :: t => written fd t

/-- The crawlers on which `Run` is called, in order. -/
def runCalls : List Event → List Crawler
  | [] => []
  | .runCall c :: t => c :: runCalls t
  | _ :: t => runCalls t

def Event.isRunCall : Event → Bool
  | .runCall _ => true
  | _ => false

def Event.isRunReturn : Event → Bool
  | .runReturn _ => true
  | _ => false

def Event.isFormatCall : Event → Bool
  | .formatCall _ _ => true
  | _ => false

def Event.isPostCall : Event → Bool
  | .postCall _ _ => true
  | _ => false

def Event.isFetch : Event → Bool
  | .fetch _ => true
  | _ => false

/-- The part of a trace before the first return of `Run` (the whole trace
when `Run` never returns in it). -/
def beforeRunReturn (t : List Event) : List Event :=
  t.takeWhile (fun e => !e.isRunReturn)

/-- The part of a trace after the first call of `Run` (empty when there is
none). -/
def afterRunCall (t : List Event) : List Event :=
  (t.dropWhile (fun e => !e.isRunCall)).tail

/-- The part of a trace between the first call of `Run` and its return. -/
def duringRun (t : List Event) : List Event :=
  beforeRunReturn (afterRunCall t)

/-- The part of a trace after the first return of `Run`. -/
def afterRunReturn (t : List Event) : List Event :=
  (t.dropWhile (fun e => !e.isRunReturn)).tail

/-- The text a run's effects put on `Out`. -/
def outText : List EngineOp → String
  | [] => ""
  | .out s :: ops => s ++ outText ops
  | _ :: ops => outText ops

/-- The text a run's effects put on the writer of logger `l`. -/
def logText (l : Logger) : List EngineOp → String
  | [] => ""
  | .log msg :: ops => l.line msg ++ logText l ops
  | _ :: ops => logText l ops

/-- The events a run's effects leave in the trace when `Out` delivers to
`os.Stdout` and the writer of logger `l` delivers to `os.Stderr`. -/
def engineEvents (l : Logger) : List EngineOp → List Event
  | [] => []
  | .out s :: ops => .write .stdout s :: engineEvents l ops
  | .log msg :: ops => .write .stderr (l.line msg) :: engineEvents l ops
  | .fetch u :: ops => .fetch u :: engineEvents l ops

/-- The texts of the single writes a trace makes on `os.Stdout`. -/
def stdoutWrites : List Event → List String
  | [] => []
  | .write .stdout s :: t => s :: stdoutWrites t
  | _ :: t => stdoutWrites t

/-! ## The crawl engine, from the specification

`httpsyet.Crawler.Run` is imported by `main.go`; its source is not part of
it. The definitions of this section follow the specification of the crawl
engine (sections 3, 4.5, 6 and 7). -/

/-- Modelled from the spec: `OutgoingLink` of the data model (section 3),
`{sourcePageURL, targetURL}`, of the missing package `httpsyet`. -/
structure OutgoingLink where
  sourcePageURL : String
  targetURL : String
  deriving DecidableEq, Repr

/-- Modelled from the spec: the scheme of a URL, the text before its first
colon; the missing package `httpsyet` tests it on every link target. -/
def schemeOf (u : String) : String :=
  String.mk (u.data.takeWhile (fun ch => ch != ':'))

/-- Modelled from the spec: the output line format of the Result Sink (section
6), `<source-page-URL><space><http-link-found>`, newline-terminated, written
by the missing `Crawler.Run`. -/
def resultLine (l : OutgoingLink) : String :=
  l.sourcePageURL ++ " " ++ l.targetURL ++ "\n"

/-- Modelled from the spec: what the network and the scheduler give the
missing `Crawler.Run` during one crawl, in the order the engine handles it
(section 4.5, steps 3 and 4): a page fetched, a page fetch that failed
(`FetchError`), a link discovered together with the answer of the HTTPS
prober for it, and a progress notice. -/
inductive CrawlStep
  | fetched (page : String)
  | fetchFailed (page cause : String)
  | link (l : OutgoingLink) (upgradable : Bool)
  | notice (text : String)
  deriving DecidableEq, Repr

/-- Modelled from the spec: what the missing `Crawler.Run` depends on and the
specification leaves open: the crawl steps of a configuration, the text of
an error line, the text of the configuration error, and which delays count
as invalid. -/
structure Network where
  steps : Crawler → List CrawlStep
  errLine : String → String → String
  configErr : String
  delayInvalid : Int → Bool

/-- Modelled from the spec: the probe target of the missing HTTPS prober
(section 4.4), the URL with its scheme replaced by `https`. -/
def httpsOf (u : String) : String :=
  "https" ++ String.mk (u.data.dropWhile (fun ch => ch != ':'))

/-- Modelled from the spec: the effects of one crawl step of the missing
`Crawler.Run` (section 4.5): a fetch failure goes to the Error Sink; a link
whose scheme is `http` is probed and, if upgradable, its result line is
written to the Result Sink at once; a progress notice goes to the error
stream when `verbose` is enabled. -/
def stepOps (n : Network) (c : Crawler) : CrawlStep → List EngineOp
  | .fetched page => [.fetch page]
  | .fetchFailed page cause => [.fetch page, .log (n.errLine page cause)]
  | .link l upgradable =>
    if schemeOf l.targetURL = "http" then
      if upgradable then [.fetch (httpsOf l.targetURL), .out (resultLine l)]
      else [.fetch (httpsOf l.targetURL)]
    else []
  | .notice text => if c.Verbose then [.log text] else []

/-- Modelled from the spec: the effects of all steps of the missing
`Crawler.Run`, in order. -/
def crawlOps (n : Network) (c : Crawler) : List CrawlStep → List EngineOp
  | [] => []
  | st :: sts => stepOps n c st ++ crawlOps n c sts

/-- Modelled from the spec: a fatal misconfiguration of the missing
`Crawler.Run` (sections 4.2 and 7): no seed URLs, a `parallel` of 0 or
negative, or an invalid delay. -/
def configInvalid (n : Network) (c : Crawler) : Bool :=
  c.Sites.length == 0 || decide (c.Parallel ≤ 0) || n.delayInvalid c.Delay

/-- Modelled from the spec: the missing method `httpsyet.Crawler.Run`. A
configuration error aborts before any crawling starts and is the only hard
failure; otherwise the crawl runs to completion and `Run` returns no error
(sections 4.5 and 7). -/
def specRun (n : Network) (c : Crawler) : RunResult :=
  if configInvalid n c then ⟨[], some n.configErr⟩
  else ⟨crawlOps n c (n.steps c), none⟩

/-- Modelled from the spec: the links the missing `Crawler.Run` reports, the
discovered links whose scheme is `http` and whose `https` equivalent the
prober confirmed (section 3, `UpgradeCandidate`; glossary). -/
def reported : List CrawlStep → List OutgoingLink
  | [] => []
  | .link l upgradable :: sts =>
    if schemeOf l.targetURL = "http" ∧ upgradable = true then l :: reported sts
    else reported sts
  | _ :: sts => reported sts

/-- The concatenation of a list of texts, in order. -/
def joinLines : List String → String
  | [] => ""
  | s :: t => s ++ joinLines t

/-! ## Concrete environments used to evaluate `main` -/

/-- A command line with one URL and `-parallel 0`. -/
def zeroParallelCmd : CmdLine :=
  { slack := none
    depth := none
    parallel := some 0
    delay := none
    version := none
    verbose := none
    args := ["http://a.example/"] }

/-- A command line with one URL, `-parallel 0` and `-version`. -/
def versionZeroParallelCmd : CmdLine :=
  { zeroParallelCmd with version := some true }


/-- A command line without URL. -/
def noUrlCmd : CmdLine :=
  { slack := some "https://hooks.example/T"
    depth := some 2
    parallel := none
    delay := none
    version := none
    verbose := some true
    args := [] }


/-- A crawl that reports one link and one failed fetch. -/
def sampleRun (_c : Crawler) : RunResult :=
  ⟨[.fetch "https://a.example/", .out "https://a.example/ http://b.example/\n",
    .log "https://a.example/x: timeout"], none⟩

/-- An environment whose webhook accepts every message. -/
def sampleEnv : Env :=
  { prog := "httpsyet"
    version := "1.0"
    goos := "linux"
    goarch := "amd64"
    printDefaults := "  -depth int\n"
    run := sampleRun
    format := fun a b => a ++ "--" ++ b
    post := fun _ _ => none }

/-- An environment whose webhook refuses every message. -/
def failingPostEnv : Env :=
  { sampleEnv with post := fun _ _ => some "403" }

/-- A command line with one URL and a webhook. -/
def sampleCmd : CmdLine :=
  { slack := some "https://hooks.example/T"
    depth := none
    parallel := none
    delay := none
    version := none
    verbose := none
    args := ["https://a.example/"] }

/-- A network with one page that links to one upgradable `http` link. -/
def sampleNetwork : Network :=
  { steps := fun _ =>
      [.fetched "http://a.example/", .link ⟨"http://a.example/", "http://b.example/"⟩ true]
    errLine := fun u cause => u ++ ": " ++ cause
    configErr := "invalid configuration"
    delayInvalid := fun d => decide (d < 0) }

/-- An environment whose crawler is the engine of the specification. -/
def specEnv : Env :=
  { sampleEnv with run := specRun sampleNetwork }

/-- The digits of a decimal numeral, read from the left. -/
def decimalDigits : List Char → Nat → Option Nat
  | [], acc => some acc
  | c :: cs, acc =>
    if c.isDigit then decimalDigits cs (10 * acc + (c.toNat - 48)) else none

/-- A reader of plain decimal numerals with an optional minus sign; on these
it agrees with `strconv.ParseInt`. -/
def decimalInt (s : String) : Option Int :=
  match s.data with
  | [] => none
  | '-' :: c :: cs => (decimalDigits (c :: cs) 0).map fun n => -(n : Int)
  | c :: cs => (decimalDigits (c :: cs) 0).map fun n => (n : Int)

/-- A flag package that reads decimal numerals and the durations `1s` and
`500ms`. -/
def sampleFlags : FlagPkg :=
  { parseInt := decimalInt
    parseDuration := fun s =>
      if s = "1s" then some 1000000000 else if s = "500ms" then some 500000000 else none
    invalidValue := fun name value =>
      "invalid value \"" ++ value ++ "\" for flag -" ++ name ++ ": parse error" }

/-! ## The trace of `main` in closed form -/

/-- The events of the call `c.Run()` that `main` makes: the call, the events
of the run, the return. -/
def runEvents (env : Env) (f : Flags) : List Event :=
  .runCall (crawlerOf f) ::
    (engineEvents (errs f) (env.run (crawlerOf f)).ops ++
      [.runReturn (env.run (crawlerOf f)).err])

/-- The message `main` hands to `slackhook.Post`. -/
def slackMsg (env : Env) (f : Flags) : String :=
  env.format (outText (env.run (crawlerOf f)).ops)
    (logText (errs f) (env.run (crawlerOf f)).ops)

/-- The events of the notification step up to the return of
`slackhook.Post`. -/
def notifyEvents (env : Env) (f : Flags) : List Event :=
  [.formatCall (outText (env.run (crawlerOf f)).ops)
      (logText (errs f) (env.run (crawlerOf f)).ops),
    .formatReturn (slackMsg env f),
    .postCall f.slackURL (slackMsg env f),
    .postReturn (env.post f.slackURL (slackMsg env f))]

/-- The events of `main` after `Run` has returned. -/
def afterRunEvents (env : Env) (f : Flags) : List Event :=
  match (env.run (crawlerOf f)).err with
  | some e => [.write .stderr ("failed to crawl: " ++ e)]
  | none =>
    if f.slackURL = "" then []
    else
      match env.post f.slackURL (slackMsg env f) with
      | some e =>
        notifyEvents env f ++
          [.write .stderr ((errs f).line ("failed posting to Slack: " ++ e))]
      | none => notifyEvents env f

/-- The texts of the single writes a run makes on `Out`. -/
def outWrites : List EngineOp → List String
  | [] => []
  | .out s :: ops => s :: outWrites ops
  | _ :: ops => outWrites ops

/-! ## Lemmas on traces -/

theorem written_append (fd : Stream) (t1 t2 : List Event) :
    written fd (t1 ++ t2) = written fd t1 ++ written fd t2 := by
  induction t1 with
  | nil => simp [written]
  | cons e t ih =>
    cases e <;> simp [written, ih]
    split <;> simp [String.append_assoc]

theorem stdoutWrites_append (t1 t2 : List Event) :
    stdoutWrites (t1 ++ t2) = stdoutWrites t1 ++ stdoutWrites t2 := by
  induction t1 with
  | nil => simp [stdoutWrites]
  | cons e t ih =>
    cases e with
    | write fd s => cases fd <;> simp [stdoutWrites, ih]
    | _ => simp [stdoutWrites, ih]

theorem runCalls_append (t1 t2 : List Event) :
    runCalls (t1 ++ t2) = runCalls t1 ++ runCalls t2 := by
  induction t1 with
  | nil => simp [runCalls]
  | cons e t ih => cases e <;> simp [runCalls, ih]

theorem written_stdout_engineEvents (l : Logger) (ops : List EngineOp) :
    written .stdout (engineEvents l ops) = outText ops := by
  induction ops with
  | nil => rfl
  | cons op ops ih => cases op <;> simp [engineEvents, written, outText, ih]

theorem written_stderr_engineEvents (l : Logger) (ops : List EngineOp) :
    written .stderr (engineEvents l ops) = logText l ops := by
  induction ops with
  | nil => rfl
  | cons op ops ih => cases op <;> simp [engineEvents, written, logText, ih]

theorem runCalls_engineEvents (l : Logger) (ops : List EngineOp) :
    runCalls (engineEvents l ops) = [] := by
  induction ops with
  | nil => rfl
  | cons op ops ih => cases op <;> simp [engineEvents, runCalls, ih]

/-- The events of a run are writes and requests only. -/
theorem engineEvents_kind (l : Logger) (ops : List EngineOp) :
    ∀ e ∈ engineEvents l ops,
      e.isRunReturn = false ∧ e.isRunCall = false ∧ e.isFormatCall = false ∧
      e.isPostCall = false ∧ (∀ r, e ≠ .postReturn r) ∧ (∀ m, e ≠ .formatReturn m) := by
  induction ops with
  | nil => simp [engineEvents]
  | cons op ops ih =>
    cases op <;> simp [engineEvents, Event.isRunReturn, Event.isRunCall,
      Event.isFormatCall, Event.isPostCall] <;> exact ih

/-- The effects of a run on the crawler `main` builds: the trace grows by
the events of the run, and the capture buffers grow by the same text exactly
when a webhook is set. -/
theorem applyOps_crawlerOf (f : Flags) (ops : List EngineOp) (w : World) :
    applyOps (crawlerOf f) ops w =
      { trace := w.trace ++ engineEvents (errs f) ops
        slackBuf := if f.slackURL = "" then w.slackBuf else w.slackBuf ++ outText ops
        slackErrBuf :=
          if f.slackURL = "" then w.slackErrBuf
          else w.slackErrBuf ++ logText (errs f) ops } := by
  induction ops generalizing w with
  | nil => cases w; simp [applyOps, engineEvents, outText, logText]
  | cons op ops ih =>
    rw [applyOps, ih]
    by_cases h : f.slackURL = ""
    · cases op <;>
        simp [applyOp, crawlerOf, output, errs, errWriter, h,
          Writer.write, Logger.output, World.emit, engineEvents, outText, logText]
    · cases op <;>
        simp [applyOp, crawlerOf, output, errs, errWriter, h,
          Writer.write, Logger.output, World.emit, engineEvents, outText, logText,
          String.append_assoc]

/-- The state after the call `c.Run()` from the initial state. -/
theorem callRun_init (env : Env) (f : Flags) :
    callRun env (crawlerOf f) World.init =
      { trace := runEvents env f
        slackBuf := if f.slackURL = "" then "" else outText (env.run (crawlerOf f)).ops
        slackErrBuf :=
          if f.slackURL = "" then ""
          else logText (errs f) (env.run (crawlerOf f)).ops } := by
  simp [callRun, applyOps_crawlerOf, World.emit, World.init, runEvents]

/-! ## `main`, branch by branch -/

theorem main_version (env : Env) (cl : CmdLine) (hv : (parse cl).versionFlag = true) :
    main env cl =
      ⟨⟨"", "", [.write .stdout
        ("httpsyet " ++ env.version ++ " " ++ env.goos ++ " " ++ env.goarch ++ "\n")]⟩, 0⟩ := by
  simp [main, hv, Writer.write, World.emit, World.init]

theorem main_usage (env : Env) (cl : CmdLine) (hv : (parse cl).versionFlag = false)
    (ha : cl.args = []) :
    main env cl =
      ⟨⟨"", "", [.write .stderr (usage env.prog), .write .stderr env.printDefaults,
        .write .stderr (more ++ "\n")]⟩, 1⟩ := by
  have hs : (parse cl).sites = [] := ha
  simp [main, hv, hs, flagUsage, Writer.write, World.emit, World.init]

theorem main_runErr (env : Env) (cl : CmdLine) (hv : (parse cl).versionFlag = false)
    (ha : cl.args ≠ []) (e : String) (he : (env.run (crawlerOf (parse cl))).err = some e) :
    (main env cl).world.trace =
        runEvents env (parse cl) ++ [.write .stderr ("failed to crawl: " ++ e)] ∧
      (main env cl).status = 1 := by
  have hs : (parse cl).sites ≠ [] := ha
  simp [main, hv, hs, he, callRun_init, Writer.write, World.emit]

theorem main_noSlack (env : Env) (cl : CmdLine) (hv : (parse cl).versionFlag = false)
    (ha : cl.args ≠ []) (he : (env.run (crawlerOf (parse cl))).err = none)
    (hsl : (parse cl).slackURL = "") :
    (main env cl).world.trace = runEvents env (parse cl) ∧ (main env cl).status = 0 := by
  have hs : (parse cl).sites ≠ [] := ha
  simp [main, hv, hs, he, callRun_init, notify, hsl]

theorem main_postOk (env : Env) (cl : CmdLine) (hv : (parse cl).versionFlag = false)
    (ha : cl.args ≠ []) (he : (env.run (crawlerOf (parse cl))).err = none)
    (hsl : (parse cl).slackURL ≠ "")
    (hp : env.post (parse cl).slackURL (slackMsg env (parse cl)) = none) :
    (main env cl).world.trace = runEvents env (parse cl) ++ notifyEvents env (parse cl) ∧
      (main env cl).status = 0 := by
  have hs : (parse cl).sites ≠ [] := ha
  simp only [slackMsg] at hp
  simp [main, hv, hs, he, callRun_init, notify, hsl, hp, World.emit, notifyEvents, slackMsg]

theorem main_postErr (env : Env) (cl : CmdLine) (hv : (parse cl).versionFlag = false)
    (ha : cl.args ≠ []) (he : (env.run (crawlerOf (parse cl))).err = none)
    (hsl : (parse cl).slackURL ≠ "") (e : String)
    (hp : env.post (parse cl).slackURL (slackMsg env (parse cl)) = some e) :
    (main env cl).world.trace =
        runEvents env (parse cl) ++ notifyEvents env (parse cl) ++
          [.write .stderr ((errs (parse cl)).line ("failed posting to Slack: " ++ e))] ∧
      (main env cl).status = 1 := by
  have hs : (parse cl).sites ≠ [] := ha
  simp only [slackMsg] at hp
  simp [main, hv, hs, he, callRun_init, notify, hsl, hp, World.emit, notifyEvents, slackMsg]
  simp [Logger.output, errs, errWriter, hsl, Writer.write, World.emit]

/-! ## Membership in the closed forms -/

theorem runReturn_mem_runEvents (env : Env) (f : Flags) (r : Option String) :
    Event.runReturn r ∈ runEvents env f ↔ (env.run (crawlerOf f)).err = r := by
  have hk := engineEvents_kind (errs f) (env.run (crawlerOf f)).ops (.runReturn r)
  constructor
  · intro h
    simp only [runEvents, List.mem_cons, List.mem_append, List.not_mem_nil, or_false] at h
    rcases h with h | h | h
    · cases h
    · exact absurd (hk h).1 (by simp [Event.isRunReturn])
    · injection h with h; exact h.symm
  · intro h
    simp [runEvents, h]

theorem runEvents_kind (env : Env) (f : Flags) :
    ∀ e ∈ runEvents env f,
      e.isFormatCall = false ∧ e.isPostCall = false ∧ (∀ r, e ≠ .postReturn r) ∧
      (∀ m, e ≠ .formatReturn m) := by
  intro e h
  simp only [runEvents, List.mem_cons, List.mem_append, List.not_mem_nil, or_false] at h
  rcases h with h | h | h
  · subst h; simp [Event.isFormatCall, Event.isPostCall]
  · have hk := engineEvents_kind _ _ e h
    exact ⟨hk.2.2.1, hk.2.2.2.1, hk.2.2.2.2.1, hk.2.2.2.2.2⟩
  · subst h; simp [Event.isFormatCall, Event.isPostCall]

theorem postReturn_not_mem_runEvents (env : Env) (f : Flags) (r : Option String) :
    Event.postReturn r ∉ runEvents env f :=
  fun h => (runEvents_kind env f _ h).2.2.1 r rfl

theorem countP_formatCall_runEvents (env : Env) (f : Flags) :
    (runEvents env f).countP Event.isFormatCall = 0 := by
  rw [List.countP_eq_zero]
  intro e h
  simp [(runEvents_kind env f e h).1]

theorem countP_postCall_runEvents (env : Env) (f : Flags) :
    (runEvents env f).countP Event.isPostCall = 0 := by
  rw [List.countP_eq_zero]
  intro e h
  simp [(runEvents_kind env f e h).2.1]

theorem takeWhile_segment {α : Type} (p : α → Bool) (a b : α) (l rest : List α)
    (ha : p a = true) (hl : ∀ e ∈ l, p e = true) (hb : p b = false) :
    ((a :: (l ++ [b])) ++ rest).takeWhile p = a :: l := by
  rw [List.cons_append, List.append_assoc, List.takeWhile_cons, if_pos ha,
    List.takeWhile_append_of_pos hl]
  simp [List.takeWhile_cons, hb]

theorem dropWhile_segment {α : Type} (p : α → Bool) (a b : α) (l rest : List α)
    (ha : p a = true) (hl : ∀ e ∈ l, p e = true) (hb : p b = false) :
    ((a :: (l ++ [b])) ++ rest).dropWhile p = b :: rest := by
  rw [List.cons_append, List.append_assoc, List.dropWhile_cons, if_pos ha]
  induction l with
  | nil => simp [List.dropWhile_cons, hb]
  | cons x l ih =>
    rw [List.cons_append, List.dropWhile_cons, if_pos (hl x (List.mem_cons_self x l))]
    exact ih (fun e he => hl e (List.mem_cons_of_mem x he))

theorem beforeRunReturn_runEvents (env : Env) (f : Flags) (rest : List Event) :
    beforeRunReturn (runEvents env f ++ rest) =
      .runCall (crawlerOf f) :: engineEvents (errs f) (env.run (crawlerOf f)).ops := by
  have hk : ∀ e ∈ engineEvents (errs f) (env.run (crawlerOf f)).ops,
      (fun e : Event => !e.isRunReturn) e = true := by
    intro e h
    simp [(engineEvents_kind _ _ e h).1]
  exact takeWhile_segment (fun e : Event => !e.isRunReturn) _ _ _ rest rfl hk rfl

theorem afterRunReturn_runEvents (env : Env) (f : Flags) (rest : List Event) :
    afterRunReturn (runEvents env f ++ rest) = rest := by
  have hk : ∀ e ∈ engineEvents (errs f) (env.run (crawlerOf f)).ops,
      (fun e : Event => !e.isRunReturn) e = true := by
    intro e h
    simp [(engineEvents_kind _ _ e h).1]
  unfold afterRunReturn runEvents
  rw [dropWhile_segment (fun e : Event => !e.isRunReturn) (.runCall (crawlerOf f))
    (.runReturn (env.run (crawlerOf f)).err) _ rest rfl hk rfl]
  rfl

theorem duringRun_runEvents (env : Env) (f : Flags) (rest : List Event) :
    duringRun (runEvents env f ++ rest) =
      engineEvents (errs f) (env.run (crawlerOf f)).ops := by
  have hk : ∀ e ∈ engineEvents (errs f) (env.run (crawlerOf f)).ops,
      (fun e : Event => !e.isRunReturn) e = true := by
    intro e h
    simp [(engineEvents_kind _ _ e h).1]
  unfold duringRun afterRunCall runEvents
  rw [List.cons_append, List.dropWhile_cons, if_neg (by simp [Event.isRunCall]), List.tail_cons]
  unfold beforeRunReturn
  rw [List.append_assoc, List.takeWhile_append_of_pos hk]
  simp [List.takeWhile_cons, Event.isRunReturn]

/-! ## The trace of a crawl, whole -/

theorem main_run_trace (env : Env) (cl : CmdLine) (hv : (parse cl).versionFlag = false)
    (ha : cl.args ≠ []) :
    (main env cl).world.trace = runEvents env (parse cl) ++ afterRunEvents env (parse cl) := by
  cases he : (env.run (crawlerOf (parse cl))).err with
  | some e => rw [(main_runErr env cl hv ha e he).1]; simp [afterRunEvents, he]
  | none =>
    by_cases hsl : (parse cl).slackURL = ""
    · rw [(main_noSlack env cl hv ha he hsl).1]; simp [afterRunEvents, he, hsl]
    · cases hp : env.post (parse cl).slackURL (slackMsg env (parse cl)) with
      | none => rw [(main_postOk env cl hv ha he hsl hp).1]; simp [afterRunEvents, he, hsl, hp]
      | some e =>
        rw [(main_postErr env cl hv ha he hsl e hp).1]; simp [afterRunEvents, he, hsl, hp]

theorem afterRunEvents_quiet (env : Env) (f : Flags) :
    stdoutWrites (afterRunEvents env f) = [] ∧ written .stdout (afterRunEvents env f) = "" ∧
      runCalls (afterRunEvents env f) = [] ∧
      ∀ e ∈ afterRunEvents env f, e.isFetch = false ∧ e.isRunCall = false := by
  unfold afterRunEvents
  split
  · simp [stdoutWrites, written, runCalls, Event.isFetch, Event.isRunCall]
  · split
    · simp [stdoutWrites, written, runCalls]
    · split <;>
        simp [notifyEvents, stdoutWrites, written, runCalls, Event.isFetch, Event.isRunCall]

theorem stdoutWrites_engineEvents (l : Logger) (ops : List EngineOp) :
    stdoutWrites (engineEvents l ops) = outWrites ops := by
  induction ops with
  | nil => rfl
  | cons op ops ih => cases op <;> simp [engineEvents, stdoutWrites, outWrites, ih]

theorem stdoutWrites_runEvents (env : Env) (f : Flags) :
    stdoutWrites (runEvents env f) = outWrites (env.run (crawlerOf f)).ops := by
  simp [runEvents, stdoutWrites, stdoutWrites_append, stdoutWrites_engineEvents]

theorem written_stdout_runEvents (env : Env) (f : Flags) :
    written .stdout (runEvents env f) = outText (env.run (crawlerOf f)).ops := by
  simp [runEvents, written, written_append, written_stdout_engineEvents]

theorem runCalls_runEvents (env : Env) (f : Flags) :
    runCalls (runEvents env f) = [crawlerOf f] := by
  simp [runEvents, runCalls, runCalls_append, runCalls_engineEvents]

/-- Standard output of a crawl is what `Run` wrote on `Out`, write by write. -/
theorem stdoutWrites_main (env : Env) (cl : CmdLine) (hv : (parse cl).versionFlag = false)
    (ha : cl.args ≠ []) :
    stdoutWrites (main env cl).world.trace = outWrites (env.run (crawlerOf (parse cl))).ops := by
  rw [main_run_trace env cl hv ha, stdoutWrites_append, stdoutWrites_runEvents,
    (afterRunEvents_quiet env (parse cl)).1, List.append_nil]

theorem written_stdout_main (env : Env) (cl : CmdLine) (hv : (parse cl).versionFlag = false)
    (ha : cl.args ≠ []) :
    written .stdout (main env cl).world.trace = outText (env.run (crawlerOf (parse cl))).ops := by
  rw [main_run_trace env cl hv ha, written_append, written_stdout_runEvents,
    (afterRunEvents_quiet env (parse cl)).2.1, String.append_empty]

theorem runCalls_main (env : Env) (cl : CmdLine) (hv : (parse cl).versionFlag = false)
    (ha : cl.args ≠ []) :
    runCalls (main env cl).world.trace = [crawlerOf (parse cl)] := by
  rw [main_run_trace env cl hv ha, runCalls_append, runCalls_runEvents,
    (afterRunEvents_quiet env (parse cl)).2.2.1, List.append_nil]

/-- Before `Run` returns there is no call of `slack.Format` or
`slackhook.Post`. -/
theorem beforeRunReturn_kind (env : Env) (f : Flags) (rest : List Event) :
    ∀ e ∈ beforeRunReturn (runEvents env f ++ rest),
      e.isFormatCall = false ∧ e.isPostCall = false := by
  rw [beforeRunReturn_runEvents]
  intro e h
  rcases List.mem_cons.1 h with h | h
  · subst h; simp [Event.isFormatCall, Event.isPostCall]
  · have hk := engineEvents_kind _ _ e h
    exact ⟨hk.2.2.1, hk.2.2.2.1⟩

/-- `Run` returned nil in the trace of `main` exactly on the path that
reaches the notification step. -/
theorem runReturn_none_mem_main (env : Env) (cl : CmdLine)
    (hr : Event.runReturn none ∈ (main env cl).world.trace) :
    (parse cl).versionFlag = false ∧ cl.args ≠ [] ∧
      (env.run (crawlerOf (parse cl))).err = none := by
  cases hv : (parse cl).versionFlag
  · by_cases ha : cl.args = []
    · rw [main_usage env cl hv ha] at hr; simp at hr
    · refine ⟨rfl, ha, ?_⟩
      cases he : (env.run (crawlerOf (parse cl))).err with
      | none => rfl
      | some e =>
        rw [(main_runErr env cl hv ha e he).1] at hr
        simp [runReturn_mem_runEvents, he] at hr
  · rw [main_version env cl hv] at hr; simp at hr

/-- `slackhook.Post` returned an error in the trace of `main` exactly on the
path through line 112. -/
theorem postReturn_some_mem_main (env : Env) (cl : CmdLine) (e : String)
    (hp : Event.postReturn (some e) ∈ (main env cl).world.trace) :
    (parse cl).versionFlag = false ∧ cl.args ≠ [] ∧
      (env.run (crawlerOf (parse cl))).err = none ∧ (parse cl).slackURL ≠ "" ∧
      env.post (parse cl).slackURL (slackMsg env (parse cl)) = some e := by
  cases hv : (parse cl).versionFlag
  · by_cases ha : cl.args = []
    · rw [main_usage env cl hv ha] at hp; simp at hp
    · cases he : (env.run (crawlerOf (parse cl))).err with
      | some e1 =>
        rw [(main_runErr env cl hv ha e1 he).1] at hp
        simp [postReturn_not_mem_runEvents] at hp
      | none =>
        by_cases hsl : (parse cl).slackURL = ""
        · rw [(main_noSlack env cl hv ha he hsl).1] at hp
          exact absurd hp (postReturn_not_mem_runEvents _ _ _)
        · cases hq : env.post (parse cl).slackURL (slackMsg env (parse cl)) with
          | none =>
            rw [(main_postOk env cl hv ha he hsl hq).1] at hp
            simp [postReturn_not_mem_runEvents, notifyEvents, hq] at hp
          | some e1 =>
            rw [(main_postErr env cl hv ha he hsl e1 hq).1] at hp
            simp [postReturn_not_mem_runEvents, notifyEvents, hq] at hp
            exact ⟨rfl, ha, rfl, hsl, by rw [hp]⟩
  · rw [main_version env cl hv] at hp; simp at hp

theorem engineEvents_congr (l1 l2 : Logger) (h : l1.pfx = l2.pfx) (ops : List EngineOp) :
    engineEvents l1 ops = engineEvents l2 ops := by
  induction ops with
  | nil => rfl
  | cons op ops ih => cases op <;> simp [engineEvents, ih, Logger.line, h]

theorem written_stdout_eq_joinLines (t : List Event) :
    written .stdout t = joinLines (stdoutWrites t) := by
  induction t with
  | nil => rfl
  | cons e t ih =>
    cases e with
    | write fd s => cases fd <;> simp [written, stdoutWrites, joinLines, ih]
    | _ => simp [written, stdoutWrites, ih]

/-- The engine of the specification writes on `Out` the result lines of the
links it reports, one write per link, in order. -/
theorem outWrites_crawlOps (n : Network) (c : Crawler) (sts : List CrawlStep) :
    outWrites (crawlOps n c sts) = (reported sts).map resultLine := by
  have happ : ∀ a b : List EngineOp, outWrites (a ++ b) = outWrites a ++ outWrites b := by
    intro a b
    induction a with
    | nil => rfl
    | cons op a ih => cases op <;> simp [outWrites, ih]
  induction sts with
  | nil => rfl
  | cons st sts ih =>
    rw [crawlOps, happ, ih]
    cases st with
    | fetched page => simp [stepOps, outWrites, reported]
    | fetchFailed page cause => simp [stepOps, outWrites, reported]
    | link l up =>
      by_cases hs : schemeOf l.targetURL = "http"
      · cases up <;> simp [stepOps, outWrites, reported, hs]
      · simp [stepOps, outWrites, reported, hs]
    | notice text => by_cases hv : c.Verbose <;> simp [stepOps, outWrites, reported, hv]

theorem reported_spec (sts : List CrawlStep) :
    ∀ l ∈ reported sts, schemeOf l.targetURL = "http" ∧ CrawlStep.link l true ∈ sts := by
  induction sts with
  | nil => simp [reported]
  | cons st sts ih =>
    intro l hl
    cases st with
    | link l1 up =>
      by_cases hc : schemeOf l1.targetURL = "http" ∧ up = true
      · simp only [reported, if_pos hc, List.mem_cons] at hl
        rcases hl with hl | hl
        · subst hl; exact ⟨hc.1, by simp [hc.2]⟩
        · exact ⟨(ih l hl).1, List.mem_cons_of_mem _ (ih l hl).2⟩
      · simp only [reported, if_neg hc] at hl
        exact ⟨(ih l hl).1, List.mem_cons_of_mem _ (ih l hl).2⟩
    | fetched page =>
      simp only [reported] at hl
      exact ⟨(ih l hl).1, List.mem_cons_of_mem _ (ih l hl).2⟩
    | fetchFailed page cause =>
      simp only [reported] at hl
      exact ⟨(ih l hl).1, List.mem_cons_of_mem _ (ih l hl).2⟩
    | notice text =>
      simp only [reported] at hl
      exact ⟨(ih l hl).1, List.mem_cons_of_mem _ (ih l hl).2⟩

/-- When `flag.Parse` returns, the process is `main` on the parsed command
line. -/
theorem program_ok (fp : FlagPkg) (env : Env) (argv : List String) (cl : CmdLine)
    (h : flagParse fp argv = .ok cl) : program fp env argv = main env cl := by
  simp [program, h]

/-! ## The claims -/

/-- C1: for every command line that parses, `main` ends with status 0 exactly
when `-version` is set, or at least one URL is given and `Crawler.Run`
returns nil and (`-slack` is empty or `slackhook.Post` returns nil); in every
other case it ends with status 1. -/
theorem exit_status (env : Env) (cl : CmdLine) :
    ((main env cl).status = 0 ↔
      ((parse cl).versionFlag = true ∨
        (cl.args ≠ [] ∧ Event.runReturn none ∈ (main env cl).world.trace ∧
          ((parse cl).slackURL = "" ∨ Event.postReturn none ∈ (main env cl).world.trace)))) ∧
    ((main env cl).status = 0 ∨ (main env cl).status = 1) := by
  cases hv : (parse cl).versionFlag
  · by_cases ha : cl.args = []
    · rw [main_usage env cl hv ha]; simp [ha]
    · cases he : (env.run (crawlerOf (parse cl))).err with
      | some e =>
        obtain ⟨ht, hs⟩ := main_runErr env cl hv ha e he
        rw [ht, hs]
        simp [runReturn_mem_runEvents, he]
      | none =>
        by_cases hsl : (parse cl).slackURL = ""
        · obtain ⟨ht, hs⟩ := main_noSlack env cl hv ha he hsl
          rw [ht, hs]
          simp [runReturn_mem_runEvents, he, ha, hsl]
        · cases hp : env.post (parse cl).slackURL (slackMsg env (parse cl)) with
          | none =>
            obtain ⟨ht, hs⟩ := main_postOk env cl hv ha he hsl hp
            rw [ht, hs]
            simp [runReturn_mem_runEvents, he, ha, notifyEvents, hp]
          | some e =>
            obtain ⟨ht, hs⟩ := main_postErr env cl hv ha he hsl e hp
            rw [ht, hs]
            simp [runReturn_mem_runEvents, he, ha, hsl, notifyEvents, hp,
              postReturn_not_mem_runEvents]
  · rw [main_version env cl hv]; simp

/-- C2 as stated fails: `httpsyet -h` gives no positional URL and does not set
`-version`; `flag.Parse` has the usage printed on standard error and ends the
process with status 0, not with a nonzero status. -/
theorem help_exits_zero :
    flagParse sampleFlags ["-h"] = .help ∧
      (program sampleFlags sampleEnv ["-h"]).status = 0 ∧
      (program sampleFlags sampleEnv ["-h"]).world.trace =
        [.write .stderr (usage "httpsyet"), .write .stderr "  -depth int\n",
          .write .stderr "\nFor more visit https://qvl.io/httpsyet.\n"] :=
  ⟨by decide, by decide, rfl⟩

/-- C2, amended: on every command line whose flags parse, with no positional
URL and `-version` not set, whatever the other flags, `main` writes the usage
text, the flag defaults and the closing line to standard error and nothing
else happens: the status is 1, `Crawler.Run` is never called, no request is
made, nothing is written to standard output, and neither `slack.Format` nor
`slackhook.Post` is called; and this is the whole process for every argument
list that `flag.Parse` reads as this command line. -/
theorem no_urls_usage (env : Env) (cl : CmdLine) (hv : (parse cl).versionFlag = false)
    (ha : cl.args = []) :
    (main env cl).world.trace =
        [.write .stderr (usage env.prog), .write .stderr env.printDefaults,
          .write .stderr (more ++ "\n")] ∧
      (main env cl).status = 1 ∧
      runCalls (main env cl).world.trace = [] ∧
      stdoutWrites (main env cl).world.trace = [] ∧
      (∀ e ∈ (main env cl).world.trace,
        e.isFormatCall = false ∧ e.isPostCall = false ∧ e.isFetch = false ∧
          e.isRunCall = false) ∧
      ∀ (fp : FlagPkg) (argv : List String),
        flagParse fp argv = .ok cl → program fp env argv = main env cl := by
  refine ⟨?_, ?_, ?_, ?_, ?_, fun fp argv h => program_ok fp env argv cl h⟩ <;>
    rw [main_usage env cl hv ha] <;>
    simp [runCalls, stdoutWrites, Event.isFormatCall, Event.isPostCall, Event.isFetch,
      Event.isRunCall]

/-- C2, amended, at `httpsyet -slack https://hooks.example/T -depth 2 -verbose`:
a webhook, a depth and `-verbose` but no URL. -/
theorem no_urls_usage_witness :
    (parse noUrlCmd).versionFlag = false ∧ noUrlCmd.args = [] ∧
      (main sampleEnv noUrlCmd).status = 1 ∧
      stdoutWrites (main sampleEnv noUrlCmd).world.trace = [] ∧
      program sampleFlags sampleEnv
          ["-slack", "https://hooks.example/T", "-depth", "2", "-verbose"] =
        main sampleEnv noUrlCmd :=
  ⟨rfl, rfl, (no_urls_usage sampleEnv noUrlCmd rfl rfl).2.1,
    (no_urls_usage sampleEnv noUrlCmd rfl rfl).2.2.2.1,
    (no_urls_usage sampleEnv noUrlCmd rfl rfl).2.2.2.2.2 sampleFlags
      ["-slack", "https://hooks.example/T", "-depth", "2", "-verbose"] (by decide)⟩

/-- C3: in every execution of `main`, `slack.Format` and `slackhook.Post` are
each called at most once, never before `Crawler.Run` has returned, and never
when `-slack` is empty; each is called exactly once precisely when `-slack`
is non-empty, at least one URL is given, `-version` is not set and `Run`
returned nil. -/
theorem notification_once (env : Env) (cl : CmdLine) :
    (main env cl).world.trace.countP Event.isFormatCall ≤ 1 ∧
    (main env cl).world.trace.countP Event.isPostCall ≤ 1 ∧
    (∀ e ∈ beforeRunReturn (main env cl).world.trace,
      e.isFormatCall = false ∧ e.isPostCall = false) ∧
    ((parse cl).slackURL = "" →
      (main env cl).world.trace.countP Event.isFormatCall = 0 ∧
        (main env cl).world.trace.countP Event.isPostCall = 0) ∧
    ((main env cl).world.trace.countP Event.isFormatCall = 1 ↔
      ((parse cl).slackURL ≠ "" ∧ cl.args ≠ [] ∧ (parse cl).versionFlag = false ∧
        Event.runReturn none ∈ (main env cl).world.trace)) ∧
    ((main env cl).world.trace.countP Event.isPostCall = 1 ↔
      ((parse cl).slackURL ≠ "" ∧ cl.args ≠ [] ∧ (parse cl).versionFlag = false ∧
        Event.runReturn none ∈ (main env cl).world.trace)) := by
  cases hv : (parse cl).versionFlag
  · by_cases ha : cl.args = []
    · rw [main_usage env cl hv ha]
      simp [ha, beforeRunReturn, List.takeWhile, Event.isRunReturn, Event.isFormatCall,
        Event.isPostCall]
    · cases he : (env.run (crawlerOf (parse cl))).err with
      | some e =>
        rw [(main_runErr env cl hv ha e he).1]
        refine ⟨?_, ?_, beforeRunReturn_kind env (parse cl) _, ?_, ?_, ?_⟩ <;>
          simp [List.countP_append, countP_formatCall_runEvents, countP_postCall_runEvents,
            Event.isFormatCall, Event.isPostCall, runReturn_mem_runEvents, he]
      | none =>
        by_cases hsl : (parse cl).slackURL = ""
        · rw [(main_noSlack env cl hv ha he hsl).1]
          refine ⟨?_, ?_, ?_, ?_, ?_, ?_⟩
          · simp [countP_formatCall_runEvents]
          · simp [countP_postCall_runEvents]
          · have h := beforeRunReturn_kind env (parse cl) []
            rwa [List.append_nil] at h
          · simp [countP_formatCall_runEvents, countP_postCall_runEvents]
          · simp [countP_formatCall_runEvents, hsl]
          · simp [countP_postCall_runEvents, hsl]
        · cases hp : env.post (parse cl).slackURL (slackMsg env (parse cl)) with
          | none =>
            rw [(main_postOk env cl hv ha he hsl hp).1]
            refine ⟨?_, ?_, beforeRunReturn_kind env (parse cl) _, ?_, ?_, ?_⟩ <;>
              simp [List.countP_append, countP_formatCall_runEvents, countP_postCall_runEvents,
                Event.isFormatCall, Event.isPostCall, runReturn_mem_runEvents, he, hsl, ha,
                notifyEvents]
          | some e =>
            rw [(main_postErr env cl hv ha he hsl e hp).1, List.append_assoc]
            refine ⟨?_, ?_, beforeRunReturn_kind env (parse cl) _, ?_, ?_, ?_⟩ <;>
              simp [List.countP_append, countP_formatCall_runEvents, countP_postCall_runEvents,
                Event.isFormatCall, Event.isPostCall, runReturn_mem_runEvents, he, hsl, ha,
                notifyEvents]
  · rw [main_version env cl hv]
    simp [beforeRunReturn, List.takeWhile, Event.isRunReturn, Event.isFormatCall,
      Event.isPostCall]

/-- C4: when `-slack` is non-empty and `Run` returns nil, the first argument
of `slack.Format` is the concatenation, in order, of everything `Run` wrote on
`Crawler.Out`, the second the concatenation of everything emitted through
`Crawler.Log`; they are exactly what standard output and standard error have
received up to that point; and `slackhook.Post` gets the webhook and exactly
the string `slack.Format` returned. -/
theorem format_arguments (env : Env) (cl : CmdLine) (hsl : (parse cl).slackURL ≠ "")
    (hr : Event.runReturn none ∈ (main env cl).world.trace) :
    ∃ a b tail,
      (main env cl).world.trace =
        beforeRunReturn (main env cl).world.trace ++
          [.runReturn none, .formatCall a b, .formatReturn (env.format a b),
            .postCall (parse cl).slackURL (env.format a b),
            .postReturn (env.post (parse cl).slackURL (env.format a b))] ++ tail ∧
      a = outText (env.run (crawlerOf (parse cl))).ops ∧
      b = logText (crawlerOf (parse cl)).Log (env.run (crawlerOf (parse cl))).ops ∧
      a = written .stdout (beforeRunReturn (main env cl).world.trace) ∧
      b = written .stderr (beforeRunReturn (main env cl).world.trace) ∧
      ∀ e ∈ tail, e.isFormatCall = false ∧ e.isPostCall = false := by
  obtain ⟨hv, ha, he⟩ := runReturn_none_mem_main env cl hr
  have ht := main_run_trace env cl hv ha
  have hb : beforeRunReturn (main env cl).world.trace =
      .runCall (crawlerOf (parse cl)) ::
        engineEvents (errs (parse cl)) (env.run (crawlerOf (parse cl))).ops := by
    rw [ht, beforeRunReturn_runEvents]
  refine ⟨outText (env.run (crawlerOf (parse cl))).ops,
    logText (errs (parse cl)) (env.run (crawlerOf (parse cl))).ops,
    (afterRunEvents env (parse cl)).drop 4, ?_, rfl, rfl, ?_, ?_, ?_⟩
  · rw [hb, ht]
    cases hp : env.post (parse cl).slackURL (slackMsg env (parse cl)) <;>
      simp only [slackMsg] at hp <;>
      simp [runEvents, afterRunEvents, he, hsl, hp, notifyEvents, slackMsg]
  · rw [hb]; simp [written, written_stdout_engineEvents]
  · rw [hb]; simp [written, written_stderr_engineEvents]
  · cases hp : env.post (parse cl).slackURL (slackMsg env (parse cl)) <;>
      simp only [slackMsg] at hp <;>
      simp [afterRunEvents, he, hsl, hp, notifyEvents, slackMsg, Event.isFormatCall,
        Event.isPostCall]

/-- C4 at a crawl that reports one link and one failed fetch. -/
theorem format_arguments_witness :
    (parse sampleCmd).slackURL ≠ "" ∧
      Event.runReturn none ∈ (main sampleEnv sampleCmd).world.trace ∧
      ∃ a b tail,
        (main sampleEnv sampleCmd).world.trace =
          beforeRunReturn (main sampleEnv sampleCmd).world.trace ++
            [.runReturn none, .formatCall a b, .formatReturn (sampleEnv.format a b),
              .postCall (parse sampleCmd).slackURL (sampleEnv.format a b),
              .postReturn (sampleEnv.post (parse sampleCmd).slackURL (sampleEnv.format a b))] ++
            tail ∧
        a = outText (sampleEnv.run (crawlerOf (parse sampleCmd))).ops ∧
        b = logText (crawlerOf (parse sampleCmd)).Log
          (sampleEnv.run (crawlerOf (parse sampleCmd))).ops ∧
        a = written .stdout (beforeRunReturn (main sampleEnv sampleCmd).world.trace) ∧
        b = written .stderr (beforeRunReturn (main sampleEnv sampleCmd).world.trace) ∧
        ∀ e ∈ tail, e.isFormatCall = false ∧ e.isPostCall = false :=
  ⟨by decide, by decide, format_arguments sampleEnv sampleCmd (by decide) (by decide)⟩

/-- C6: whenever `slackhook.Post` returns an error, `main` ends with status 1
after `Run` has returned nil; what follows the return of `Run` is the call of
`slack.Format`, the call of `slackhook.Post` and one line
`failed posting to Slack: <error>` of the error logger on standard error;
standard output holds exactly what `Run` wrote, the same bytes as under any
other behaviour of `slackhook.Post`. -/
theorem post_failure_reported (env : Env) (cl : CmdLine) (e : String)
    (hp : Event.postReturn (some e) ∈ (main env cl).world.trace) :
    (main env cl).status = 1 ∧
    Event.runReturn none ∈ (main env cl).world.trace ∧
    (∃ a b m nl, (nl = "" ∨ nl = "\n") ∧
      (crawlerOf (parse cl)).Log.line ("failed posting to Slack: " ++ e) =
        "failed posting to Slack: " ++ e ++ nl ∧
      afterRunReturn (main env cl).world.trace =
        [.formatCall a b, .formatReturn m, .postCall (parse cl).slackURL m,
          .postReturn (some e),
          .write .stderr ("failed posting to Slack: " ++ e ++ nl)]) ∧
    written .stdout (main env cl).world.trace = outText (env.run (crawlerOf (parse cl))).ops ∧
    ∀ post2 : String → String → Option String,
      written .stdout (main { env with post := post2 } cl).world.trace =
        written .stdout (main env cl).world.trace := by
  obtain ⟨hv, ha, he, hsl, hq⟩ := postReturn_some_mem_main env cl e hp
  obtain ⟨ht, hs⟩ := main_postErr env cl hv ha he hsl e hq
  refine ⟨hs, ?_, ?_, written_stdout_main env cl hv ha, ?_⟩
  · rw [ht]; simp [runReturn_mem_runEvents, he]
  · have hline : ∃ nl, (nl = "" ∨ nl = "\n") ∧
        (errs (parse cl)).line ("failed posting to Slack: " ++ e) =
          "failed posting to Slack: " ++ e ++ nl := by
      unfold Logger.line errs
      split
      · exact ⟨"", Or.inl rfl, by simp [String.empty_append, String.append_empty]⟩
      · exact ⟨"\n", Or.inr rfl, by simp [String.empty_append]⟩
    obtain ⟨nl, hnl, hl⟩ := hline
    refine ⟨outText (env.run (crawlerOf (parse cl))).ops,
      logText (errs (parse cl)) (env.run (crawlerOf (parse cl))).ops,
      slackMsg env (parse cl), nl, hnl, hl, ?_⟩
    rw [ht, List.append_assoc, afterRunReturn_runEvents, hl]
    simp [notifyEvents, hq]
  · intro post2
    rw [written_stdout_main env cl hv ha]
    exact written_stdout_main { env with post := post2 } cl hv ha

/-- C6 at a webhook that answers 403. -/
theorem post_failure_reported_witness :
    Event.postReturn (some "403") ∈ (main failingPostEnv sampleCmd).world.trace ∧
      (main failingPostEnv sampleCmd).status = 1 ∧
      written .stdout (main failingPostEnv sampleCmd).world.trace =
        outText (failingPostEnv.run (crawlerOf (parse sampleCmd))).ops :=
  ⟨by decide, (post_failure_reported failingPostEnv sampleCmd "403" (by decide)).1,
    (post_failure_reported failingPostEnv sampleCmd "403" (by decide)).2.2.2.1⟩

/-- C9: on every command line that reaches the crawl, `Run` is called exactly
once, on a crawler whose `Sites` are the positional arguments in their order
and whose `Depth`, `Parallel`, `Delay` and `Verbose` are the values of the
flags, an omitted flag standing for depth 0, parallel 10, delay one second
and verbose false. -/
theorem config_pass_through (env : Env) (cl : CmdLine) (hv : (parse cl).versionFlag = false)
    (ha : cl.args ≠ []) :
    ∃ c, runCalls (main env cl).world.trace = [c] ∧
      c.Sites = cl.args ∧
      c.Depth = cl.depth.getD 0 ∧
      c.Parallel = cl.parallel.getD 10 ∧
      c.Delay = cl.delay.getD 1000000000 ∧
      c.Verbose = cl.verbose.getD false :=
  ⟨crawlerOf (parse cl), runCalls_main env cl hv ha, rfl, rfl, rfl, rfl, rfl⟩

/-- C9 at a command line that gives one URL and a webhook and omits every
other flag. -/
theorem config_pass_through_witness :
    (parse sampleCmd).versionFlag = false ∧ sampleCmd.args ≠ [] ∧
      ∃ c, runCalls (main sampleEnv sampleCmd).world.trace = [c] ∧
        c.Sites = ["https://a.example/"] ∧ c.Depth = 0 ∧ c.Parallel = 10 ∧
        c.Delay = 1000000000 ∧ c.Verbose = false :=
  ⟨rfl, by decide, config_pass_through sampleEnv sampleCmd rfl (by decide)⟩

/-- C10: for two command lines that differ only in `-slack`, if `Run` performs
the same sequence of effects in both, then what happens between the call and
the return of `Run` is the same in both, event by event; so the bytes on
standard output and on standard error during `Run` are the same, and they
are what `Run` wrote on `Out` and emitted through `Log`, nothing replaced,
reordered or filtered. -/
theorem slack_noninterference (env : Env) (cl : CmdLine) (s1 s2 : Option String)
    (hops : (env.run (crawlerOf (parse { cl with slack := s1 }))).ops =
      (env.run (crawlerOf (parse { cl with slack := s2 }))).ops) :
    duringRun (main env { cl with slack := s1 }).world.trace =
        duringRun (main env { cl with slack := s2 }).world.trace ∧
      written .stdout (duringRun (main env { cl with slack := s1 }).world.trace) =
        written .stdout (duringRun (main env { cl with slack := s2 }).world.trace) ∧
      written .stderr (duringRun (main env { cl with slack := s1 }).world.trace) =
        written .stderr (duringRun (main env { cl with slack := s2 }).world.trace) ∧
      ((parse cl).versionFlag = false → cl.args ≠ [] →
        written .stdout (duringRun (main env { cl with slack := s2 }).world.trace) =
            outText (env.run (crawlerOf (parse { cl with slack := s2 }))).ops ∧
          written .stderr (duringRun (main env { cl with slack := s2 }).world.trace) =
            logText (crawlerOf (parse { cl with slack := s2 })).Log
              (env.run (crawlerOf (parse { cl with slack := s2 }))).ops) := by
  have key : duringRun (main env { cl with slack := s1 }).world.trace =
      duringRun (main env { cl with slack := s2 }).world.trace := by
    cases hv : (parse cl).versionFlag
    · by_cases ha : cl.args = []
      · rw [main_usage env { cl with slack := s1 } hv ha,
          main_usage env { cl with slack := s2 } hv ha]
      · rw [main_run_trace env { cl with slack := s1 } hv ha,
          main_run_trace env { cl with slack := s2 } hv ha,
          duringRun_runEvents, duringRun_runEvents, hops]
        exact engineEvents_congr (errs (parse { cl with slack := s1 }))
          (errs (parse { cl with slack := s2 })) rfl _
    · rw [main_version env { cl with slack := s1 } hv,
        main_version env { cl with slack := s2 } hv]
  refine ⟨key, by rw [key], by rw [key], ?_⟩
  intro hv ha
  rw [main_run_trace env { cl with slack := s2 } hv ha, duringRun_runEvents]
  exact ⟨written_stdout_engineEvents _ _, written_stderr_engineEvents _ _⟩

/-- C10 at one crawl run without and with a webhook. -/
theorem slack_noninterference_witness :
    (sampleEnv.run (crawlerOf (parse { sampleCmd with slack := none }))).ops =
        (sampleEnv.run (crawlerOf (parse { sampleCmd with slack := some "https://hooks.example/T" }))).ops ∧
      written .stdout (duringRun (main sampleEnv { sampleCmd with slack := none }).world.trace) =
        written .stdout
          (duringRun (main sampleEnv
            { sampleCmd with slack := some "https://hooks.example/T" }).world.trace) :=
  ⟨rfl, (slack_noninterference sampleEnv sampleCmd none (some "https://hooks.example/T") rfl).2.1⟩

/-- C5 as stated fails twice. With `-version` set, one URL and `-parallel 0`,
`main` prints the version line on standard output and ends with status 0;
`Run` is never called. With `-parallel 0 -h` before the URL, `flag.Parse`
has the usage printed and ends the process with status 0 before `main` reads
any flag. -/
theorem invalid_parallel_exits_zero :
    versionZeroParallelCmd.args ≠ [] ∧ (parse versionZeroParallelCmd).parallel ≤ 0 ∧
      (main specEnv versionZeroParallelCmd).status = 0 ∧
      (main specEnv versionZeroParallelCmd).world.trace =
        [.write .stdout "httpsyet 1.0 linux amd64\n"] ∧
      flagParse sampleFlags ["-version", "-parallel", "0", "http://a.example/"] =
        .ok versionZeroParallelCmd ∧
      (program sampleFlags specEnv
        ["-version", "-parallel", "0", "http://a.example/"]).status = 0 ∧
      flagParse sampleFlags ["-parallel", "0", "-h", "http://a.example/"] = .help ∧
      (program sampleFlags specEnv ["-parallel", "0", "-h", "http://a.example/"]).status = 0 := by
  decide

/-- C5, amended: with the crawl engine of the specification, on every command
line whose flags parse, with at least one URL, `-version` not set and
`-parallel` 0 or negative, `Run` returns the configuration error without any
effect and `main` reports it on standard error and ends with status 1: no
request is made and nothing is written to standard output; and this is the
whole process for every argument list that `flag.Parse` reads as this
command line. -/
theorem invalid_parallel_fatal (n : Network) (env : Env) (cl : CmdLine)
    (hrun : env.run = specRun n) (hv : (parse cl).versionFlag = false) (ha : cl.args ≠ [])
    (hp : (parse cl).parallel ≤ 0) :
    (main env cl).status = 1 ∧
      (main env cl).world.trace =
        [.runCall (crawlerOf (parse cl)), .runReturn (some n.configErr),
          .write .stderr ("failed to crawl: " ++ n.configErr)] ∧
      (∀ e ∈ (main env cl).world.trace, e.isFetch = false) ∧
      stdoutWrites (main env cl).world.trace = [] ∧
      ∀ (fp : FlagPkg) (argv : List String),
        flagParse fp argv = .ok cl → program fp env argv = main env cl := by
  have hr : env.run (crawlerOf (parse cl)) = ⟨[], some n.configErr⟩ := by
    have hpar : (crawlerOf (parse cl)).Parallel ≤ 0 := hp
    simp [hrun, specRun, configInvalid, hpar]
  have he : (env.run (crawlerOf (parse cl))).err = some n.configErr := by rw [hr]
  obtain ⟨ht, hs⟩ := main_runErr env cl hv ha n.configErr he
  have ht2 : (main env cl).world.trace =
      [.runCall (crawlerOf (parse cl)), .runReturn (some n.configErr),
        .write .stderr ("failed to crawl: " ++ n.configErr)] := by
    rw [ht]; simp [runEvents, hr, engineEvents]
  refine ⟨hs, ht2, ?_, ?_, fun fp argv h => program_ok fp env argv cl h⟩
  · rw [ht2]; simp [Event.isFetch]
  · rw [ht2]; simp [stdoutWrites]

/-- C5, amended, at `httpsyet -parallel 0 http://a.example/`. -/
theorem invalid_parallel_fatal_witness :
    specEnv.run = specRun sampleNetwork ∧ (parse zeroParallelCmd).versionFlag = false ∧
      zeroParallelCmd.args ≠ [] ∧ (parse zeroParallelCmd).parallel ≤ 0 ∧
      (main specEnv zeroParallelCmd).status = 1 ∧
      stdoutWrites (main specEnv zeroParallelCmd).world.trace = [] ∧
      program sampleFlags specEnv ["-parallel", "0", "http://a.example/"] =
        main specEnv zeroParallelCmd :=
  ⟨rfl, rfl, by decide, by decide,
    (invalid_parallel_fatal sampleNetwork specEnv zeroParallelCmd rfl rfl (by decide)
      (by decide)).1,
    (invalid_parallel_fatal sampleNetwork specEnv zeroParallelCmd rfl rfl (by decide)
      (by decide)).2.2.2.1,
    (invalid_parallel_fatal sampleNetwork specEnv zeroParallelCmd rfl rfl (by decide)
      (by decide)).2.2.2.2 sampleFlags ["-parallel", "0", "http://a.example/"] (by decide)⟩

/-- C8: with `-version` not set, standard output receives exactly the writes
`Run` makes on `Out` and nothing from `main` itself; with the crawl engine of
the specification these writes are, in order, one line
`<source-page-URL> <link>` with a closing newline for each reported link, and
every reported link was discovered during the crawl, has scheme `http` and a
reachable `https` equivalent. -/
theorem result_line_format (n : Network) (env : Env) (cl : CmdLine)
    (hrun : env.run = specRun n) (hv : (parse cl).versionFlag = false) :
    stdoutWrites (main env cl).world.trace =
        (if cl.args = [] then [] else outWrites (env.run (crawlerOf (parse cl))).ops) ∧
      (∃ ls : List OutgoingLink,
        stdoutWrites (main env cl).world.trace =
            ls.map (fun l => l.sourcePageURL ++ " " ++ l.targetURL ++ "\n") ∧
          written .stdout (main env cl).world.trace =
            joinLines (ls.map (fun l => l.sourcePageURL ++ " " ++ l.targetURL ++ "\n")) ∧
          ls =
            (if cl.args ≠ [] ∧ configInvalid n (crawlerOf (parse cl)) = false then
              reported (n.steps (crawlerOf (parse cl)))
            else []) ∧
          ∀ l ∈ ls, schemeOf l.targetURL = "http" ∧
            CrawlStep.link l true ∈ n.steps (crawlerOf (parse cl))) := by
  have hmain : stdoutWrites (main env cl).world.trace =
      (if cl.args = [] then [] else outWrites (env.run (crawlerOf (parse cl))).ops) := by
    by_cases ha : cl.args = []
    · rw [main_usage env cl hv ha]; simp [ha, stdoutWrites]
    · rw [stdoutWrites_main env cl hv ha]; simp [ha]
  have hls : stdoutWrites (main env cl).world.trace =
      (if cl.args ≠ [] ∧ configInvalid n (crawlerOf (parse cl)) = false then
        reported (n.steps (crawlerOf (parse cl)))
      else []).map resultLine := by
    rw [hmain]
    by_cases ha : cl.args = []
    · simp [ha]
    · cases hc : configInvalid n (crawlerOf (parse cl))
      · simp [ha, hrun, specRun, hc, outWrites_crawlOps]
      · simp [ha, hrun, specRun, hc, outWrites]
  refine ⟨hmain, _, hls, ?_, rfl, ?_⟩
  · rw [written_stdout_eq_joinLines, hls]; rfl
  · intro l hl
    split at hl
    · exact reported_spec _ l hl
    · simp at hl

/-- C8 at a page with one upgradable `http` link. -/
theorem result_line_format_witness :
    specEnv.run = specRun sampleNetwork ∧ (parse sampleCmd).versionFlag = false ∧
      stdoutWrites (main specEnv sampleCmd).world.trace =
        ["http://a.example/ http://b.example/\n"] := by
  refine ⟨rfl, rfl, ?_⟩
  obtain ⟨_, ls, h1, _, h3, _⟩ := result_line_format sampleNetwork specEnv sampleCmd rfl rfl
  rw [h1, h3]
  decide

end Httpsyet
